import Mathlib

/-!
Shallow embedding of `src/index.js` of the redash-mcp-server repository.

JavaScript values that matter to the program (bodies of upstream HTTP
responses, header strings, environment variables) are modelled explicitly:
`JsVal` models JSON-ish JS values with JS truthiness, `JsNum` models a JS
number that may be `NaN` (as produced by `parseInt` on non-numeric text),
and `Option String` models a string-or-undefined value.

The external query engine is an oracle (`Engine`): an arbitrary submit
response, an arbitrary stream of poll responses indexed by call count, and
an arbitrary fetch response per result id.  Time advances only at the
`sleep` call of the poll loop (fetches are instantaneous in the model), so
`Date.now() - started` is the accumulated sum of slept milliseconds.  The
loop is written with an explicit fuel parameter; the exported
`pollJobUntilDone` supplies fuel `timeoutFuel timeoutMs + 1`, which the
termination theorem proves sufficient whenever the resolved poll interval
is a positive number.
-/

/-- JS value, as far as this program observes one: `undefined`, `null`,
booleans, numbers, strings, objects and arrays. -/
inductive JsVal where
  | undef : JsVal
  | null : JsVal
  | boolean : Bool → JsVal
  | num : Int → JsVal
  | str : String → JsVal
  | obj : List (String × JsVal) → JsVal
  | arr : List JsVal → JsVal

/-- JS truthiness of a `JsVal` (`undefined`, `null`, `false`, `0`, `""`
are falsy; objects and arrays are always truthy). -/
def JsVal.truthy : JsVal → Bool
  | JsVal.undef => false
  | JsVal.null => false
  | JsVal.boolean b => b
  | JsVal.num n => decide (n ≠ 0)
  | JsVal.str s => decide (s ≠ "")
  | JsVal.obj _ => true
  | JsVal.arr _ => true

/-- Optional-chained property access `v?.k`: `undefined` unless `v` is an
object with field `k`. -/
def JsVal.get : JsVal → String → JsVal
  | JsVal.obj fields, k =>
    match fields.lookup k with
    | some v => v
    | none => JsVal.undef
  | _, _ => JsVal.undef

/-- JS `a || b` on values. -/
def jsOrV (a b : JsVal) : JsVal := if a.truthy then a else b

/-- JS strict equality `v === n` against a number literal. -/
def JsVal.eqNum : JsVal → Int → Bool
  | JsVal.num m, n => decide (m = n)
  | _, _ => false

/-- Truthiness of a string-or-undefined JS value. -/
def truthyS : Option String → Bool
  | some s => decide (s ≠ "")
  | none => false

/-- JS `a || b` on string-or-undefined values. -/
def jsOrS (a b : Option String) : Option String := if truthyS a then a else b

/-- JS number that may be `NaN`. -/
inductive JsNum where
  | nan : JsNum
  | num : Int → JsNum

/-- JS `<` on numbers: any comparison with `NaN` is false. -/
def JsNum.ltB : JsNum → JsNum → Bool
  | JsNum.num a, JsNum.num b => decide (a < b)
  | _, _ => false

/-- JS `*` on numbers: `NaN` propagates. -/
def JsNum.mul : JsNum → JsNum → JsNum
  | JsNum.num a, JsNum.num b => JsNum.num (a * b)
  | _, _ => JsNum.nan

/-- Value of a list of decimal digit characters. -/
def decDigitsVal (ds : List Char) : Nat :=
  ds.foldl (fun acc c => acc * 10 + (c.toNat - 48)) 0

/-- Hexadecimal digit test. -/
def isHexDigitCh (c : Char) : Bool :=
  c.isDigit || (decide ('a' ≤ c) && decide (c ≤ 'f')) || (decide ('A' ≤ c) && decide (c ≤ 'F'))

/-- Value of one hexadecimal digit character. -/
def hexDigitVal (c : Char) : Nat :=
  if c.isDigit then c.toNat - 48
  else if decide ('a' ≤ c) && decide (c ≤ 'f') then c.toNat - 87
  else c.toNat - 55

/-- Value of a list of hexadecimal digit characters. -/
def hexDigitsVal (ds : List Char) : Nat :=
  ds.foldl (fun acc c => acc * 16 + hexDigitVal c) 0

/-- JS `parseInt(s)` (radix unspecified): skip leading whitespace, optional
sign, then either a `0x`/`0X` hexadecimal literal or a longest decimal
digit prefix; no digits at all gives `NaN`. -/
def parseInt (s : String) : JsNum :=
  let cs := s.data.dropWhile (fun c => c.isWhitespace)
  let signAndRest : Int × List Char :=
    match cs with
    | '-' :: rest => (-1, rest)
    | '+' :: rest => (1, rest)
    | _ => (1, cs)
  let sgn := signAndRest.1
  match signAndRest.2 with
  | '0' :: 'x' :: rest =>
    let hs := rest.takeWhile isHexDigitCh
    if hs.isEmpty then JsNum.nan else JsNum.num (sgn * (hexDigitsVal hs : Int))
  | '0' :: 'X' :: rest =>
    let hs := rest.takeWhile isHexDigitCh
    if hs.isEmpty then JsNum.nan else JsNum.num (sgn * (hexDigitsVal hs : Int))
  | other =>
    let ds := other.takeWhile Char.isDigit
    if ds.isEmpty then JsNum.nan else JsNum.num (sgn * (decDigitsVal ds : Int))

/-- JS `String.prototype.split(sep)` on character lists (empty input gives
one empty piece, adjacent separators give empty pieces, like JS). -/
def splitChars (sep : Char) : List Char → List (List Char)
  | [] => [[]]
  | c :: rest =>
    let r := splitChars sep rest
    if c = sep then [] :: r
    else
      match r with
      | [] => [[c]]
      | h :: t => (c :: h) :: t

/-- List prefix test used to model JS `String.prototype.startsWith`. -/
def hasPre : List Char → List Char → Bool
  | [], _ => true
  | _ :: _, [] => false
  | p :: ps, x :: xs => decide (p = x) && hasPre ps xs

/-- Authorization-header parsing from the `GET /sse` and `POST /messages`
handlers: split on a space; a two-part value yields the second part, a
`"Key "`-prefixed value yields the text after the prefix, anything else is
taken verbatim. -/
def parseAuthHeader (h : String) : String :=
  if (splitChars ' ' h.data).length = 2 then String.mk ((splitChars ' ' h.data).getD 1 [])
  else if hasPre "Key ".data h.data then String.mk (h.data.drop 4)
  else h

/-- Arguments of `getDataHandler` (each optional field is a
string-or-undefined JS value). -/
structure Args where
  org : String
  redashApiKey : Option String
  timeoutSeconds : Option String
  pollMs : Option String
  maxAgeSeconds : Option String
  queryId : Option String

/-- Process-wide environment variables read by the program. -/
structure Env where
  REDASH_KEY : Option String
  QUERY_TIMEOUT_SECONDS : Option String
  QUERY_POLL_MS : Option String
  QUERY_MAX_AGE_SECONDS : Option String
  REDASH_QUERY_ID : Option String

/-- An upstream HTTP response: `ok` flag and parsed JSON body. -/
structure HttpResp where
  ok : Bool
  body : JsVal

/-- Oracle for the external query engine: the submit response (as a
function of query id and post body), the poll response for each poll call
(indexed by job id and call count), and the fetch response for each
result id. -/
structure Engine where
  submit : String → JsVal → HttpResp
  poll : JsVal → Nat → HttpResp
  fetch : JsVal → HttpResp

/-- Result of the poll loop, recording the elapsed model time (ms) and the
number of poll calls made. -/
inductive PollResult where
  | done : JsVal → Nat → Nat → PollResult
  | jobFailed : JsVal → Nat → Nat → PollResult
  | httpErr : Nat → Nat → PollResult
  | missingRef : Nat → Nat → PollResult
  | timeout : Nat → Nat → PollResult
  | fuelOut : Nat → Nat → PollResult

/-- Elapsed model time recorded in a poll-loop result. -/
def PollResult.elapsedOf : PollResult → Nat
  | PollResult.done _ e _ => e
  | PollResult.jobFailed _ e _ => e
  | PollResult.httpErr e _ => e
  | PollResult.missingRef e _ => e
  | PollResult.timeout e _ => e
  | PollResult.fuelOut e _ => e

/-- Number of poll calls recorded in a poll-loop result. -/
def PollResult.pollsOf : PollResult → Nat
  | PollResult.done _ _ n => n
  | PollResult.jobFailed _ _ n => n
  | PollResult.httpErr _ n => n
  | PollResult.missingRef _ n => n
  | PollResult.timeout _ n => n
  | PollResult.fuelOut _ n => n

/-- Whether a poll-loop result is the fuel-exhaustion artifact of the
embedding (never produced under the termination theorem's hypotheses). -/
def PollResult.isFuelOut : PollResult → Bool
  | PollResult.fuelOut _ _ => true
  | _ => false

/-- Milliseconds the model clock advances at one `sleep(pollDelayMs)`
call: `setTimeout` coerces `NaN` and negative delays to zero. -/
def sleepAdvance : JsNum → Nat
  | JsNum.nan => 0
  | JsNum.num n => n.toNat

/-- Fuel bound derived from the timeout budget. -/
def timeoutFuel : JsNum → Nat
  | JsNum.nan => 0
  | JsNum.num n => n.toNat

/-- Body of `pollJobUntilDone`'s `while` loop, fuelled.  Each iteration:
re-check the deadline, fetch the job status, return on status 3 (done,
extracting the result id from either accepted shape) or status 4 (failed),
otherwise sleep and continue. -/
def pollLoop (eng : Engine) (jobId : JsVal) (timeoutMs pollDelayMs : JsNum) :
    Nat → Nat → Nat → PollResult
  | fuel, elapsed, polls =>
    if JsNum.ltB (JsNum.num (elapsed : Int)) timeoutMs then
      match fuel with
      | 0 => PollResult.fuelOut elapsed polls
      | Nat.succ f =>
        let jobRes := eng.poll jobId polls
        if jobRes.ok = false then PollResult.httpErr elapsed (polls + 1)
        else
          let jobJson := jobRes.body
          let status := JsVal.get (JsVal.get jobJson "job") "status"
          if JsVal.eqNum status 3 then
            let qrid := jsOrV
              (JsVal.get (JsVal.get (JsVal.get jobJson "job") "result") "query_result_id")
              (JsVal.get (JsVal.get jobJson "job") "query_result_id")
            if qrid.truthy then PollResult.done qrid elapsed (polls + 1)
            else PollResult.missingRef elapsed (polls + 1)
          else if JsVal.eqNum status 4 then
            PollResult.jobFailed
              (jsOrV (JsVal.get (JsVal.get jobJson "job") "error")
                (JsVal.str "Unknown Redash job failure"))
              elapsed (polls + 1)
          else
            pollLoop eng jobId timeoutMs pollDelayMs f
              (elapsed + sleepAdvance pollDelayMs) (polls + 1)
    else PollResult.timeout elapsed polls

/-- The `pollJobUntilDone` closure of `getDataHandler`. -/
def pollJobUntilDone (eng : Engine) (jobId : JsVal) (timeoutMs pollDelayMs : JsNum) :
    PollResult :=
  pollLoop eng jobId timeoutMs pollDelayMs (timeoutFuel timeoutMs + 1) 0 0

/-- Error taxonomy of `getDataHandler`, one constructor per `throw` site. -/
inductive HandlerError where
  | missingCredential : HandlerError
  | submitHttp : HandlerError
  | unexpectedShape : JsVal → HandlerError
  | pollHttp : HandlerError
  | jobFailed : JsVal → HandlerError
  | missingResultReference : HandlerError
  | pollTimeout : HandlerError
  | fetchHttp : HandlerError
  | modelFuelOut : HandlerError

/-- Observable outcome of one `getDataHandler` invocation: the returned
payload or error, the credential placed in the `Authorization` headers,
and the number of upstream submit, poll and fetch calls made (with the
ids fetched). -/
structure Outcome where
  result : Except HandlerError JsVal
  credentialUsed : Option String
  submitCalls : Nat
  pollCalls : Nat
  fetchCalls : Nat
  fetchIds : List JsVal

/-- `redashApiKey || process.env.REDASH_KEY`. -/
def resolvedApiKey (a : Args) (env : Env) : Option String :=
  jsOrS a.redashApiKey env.REDASH_KEY

/-- `timeoutSeconds || process.env.QUERY_TIMEOUT_SECONDS || '60'`. -/
def resolvedTimeoutStr (a : Args) (env : Env) : String :=
  Option.getD (jsOrS a.timeoutSeconds (jsOrS env.QUERY_TIMEOUT_SECONDS (some "60"))) "60"

/-- `pollMs || process.env.QUERY_POLL_MS || '2000'`. -/
def resolvedPollStr (a : Args) (env : Env) : String :=
  Option.getD (jsOrS a.pollMs (jsOrS env.QUERY_POLL_MS (some "2000"))) "2000"

/-- `maxAgeSeconds ? parseInt(maxAgeSeconds) : (env set ? parseInt(env) :
undefined)`. -/
def resolvedMaxAge (a : Args) (env : Env) : Option JsNum :=
  if truthyS a.maxAgeSeconds then some (parseInt (Option.getD a.maxAgeSeconds ""))
  else if truthyS env.QUERY_MAX_AGE_SECONDS then
    some (parseInt (Option.getD env.QUERY_MAX_AGE_SECONDS ""))
  else none

/-- `queryId || process.env.REDASH_QUERY_ID || '35173'`. -/
def resolvedQueryId (a : Args) (env : Env) : String :=
  Option.getD (jsOrS a.queryId (jsOrS env.REDASH_QUERY_ID (some "35173"))) "35173"

/-- The JSON body of the submit POST: `{parameters: {org}, max_age?}`
(`max_age` included whenever `typeof maxAge === 'number'`, which also
holds for `NaN`; `JSON.stringify` renders `NaN` as `null`). -/
def resolvedPostBody (a : Args) (env : Env) : JsVal :=
  match resolvedMaxAge a env with
  | some (JsNum.num n) =>
    JsVal.obj [("parameters", JsVal.obj [("org", JsVal.str a.org)]), ("max_age", JsVal.num n)]
  | some JsNum.nan =>
    JsVal.obj [("parameters", JsVal.obj [("org", JsVal.str a.org)]), ("max_age", JsVal.null)]
  | none => JsVal.obj [("parameters", JsVal.obj [("org", JsVal.str a.org)])]

/-- `parseInt(timeoutSeconds || ... || '60') * 1000`. -/
def handlerTimeoutMs (a : Args) (env : Env) : JsNum :=
  JsNum.mul (parseInt (resolvedTimeoutStr a env)) (JsNum.num 1000)

/-- `parseInt(pollMs || ... || '2000')`. -/
def handlerPollMs (a : Args) (env : Env) : JsNum :=
  parseInt (resolvedPollStr a env)

/-- The submit response of this invocation. -/
def handlerSubmitResp (a : Args) (env : Env) (eng : Engine) : HttpResp :=
  eng.submit (resolvedQueryId a env) (resolvedPostBody a env)

/-- `json?.job?.id || json?.job?.job_id || json?.id`. -/
def submitJobId (json : JsVal) : JsVal :=
  jsOrV (jsOrV (JsVal.get (JsVal.get json "job") "id") (JsVal.get (JsVal.get json "job") "job_id"))
    (JsVal.get json "id")

/-- Continuation of `getDataHandler` after the poll loop: on `done`, fetch
the query result by id and return its body; every other loop exit maps to
its error. -/
def afterPoll (apiKey : Option String) (eng : Engine) : PollResult → Outcome
  | PollResult.done qrid _ n =>
    if (eng.fetch qrid).ok = false then
      ⟨Except.error HandlerError.fetchHttp, apiKey, 1, n, 1, [qrid]⟩
    else ⟨Except.ok (eng.fetch qrid).body, apiKey, 1, n, 1, [qrid]⟩
  | PollResult.jobFailed err _ n =>
    ⟨Except.error (HandlerError.jobFailed err), apiKey, 1, n, 0, []⟩
  | PollResult.httpErr _ n => ⟨Except.error HandlerError.pollHttp, apiKey, 1, n, 0, []⟩
  | PollResult.missingRef _ n =>
    ⟨Except.error HandlerError.missingResultReference, apiKey, 1, n, 0, []⟩
  | PollResult.timeout _ n => ⟨Except.error HandlerError.pollTimeout, apiKey, 1, n, 0, []⟩
  | PollResult.fuelOut _ n => ⟨Except.error HandlerError.modelFuelOut, apiKey, 1, n, 0, []⟩

/-- The `getDataHandler` function: resolve the credential (error if none),
resolve the tuning parameters, submit; return an immediate `query_result`
body at once; otherwise extract a job id (error if none), run the poll
loop, and fetch the completed result. -/
def getDataHandler (a : Args) (env : Env) (eng : Engine) : Outcome :=
  if truthyS (resolvedApiKey a env) = false then
    ⟨Except.error HandlerError.missingCredential, resolvedApiKey a env, 0, 0, 0, []⟩
  else if (handlerSubmitResp a env eng).ok = false then
    ⟨Except.error HandlerError.submitHttp, resolvedApiKey a env, 1, 0, 0, []⟩
  else if (JsVal.get (handlerSubmitResp a env eng).body "query_result").truthy then
    ⟨Except.ok (handlerSubmitResp a env eng).body, resolvedApiKey a env, 1, 0, 0, []⟩
  else if (submitJobId (handlerSubmitResp a env eng).body).truthy = false then
    ⟨Except.error (HandlerError.unexpectedShape (handlerSubmitResp a env eng).body),
      resolvedApiKey a env, 1, 0, 0, []⟩
  else
    afterPoll (resolvedApiKey a env) eng
      (pollJobUntilDone eng (submitJobId (handlerSubmitResp a env eng).body)
        (handlerTimeoutMs a env) (handlerPollMs a env))

/-- Per-session stored timeout configuration
(`{ timeoutSeconds, pollMs, maxAgeSeconds }`). -/
structure TimeoutConfig where
  timeoutSeconds : Option String
  pollMs : Option String
  maxAgeSeconds : Option String

/-- The state the HTTP server holds for one session across the
`sessionApiKeys`, `sessionTimeouts` and `sessionQueryIds` maps. -/
structure SessionState where
  apiKey : Option String
  timeouts : Option TimeoutConfig
  queryId : Option String

/-- Request headers read by the HTTP handlers (Node lowercases names). -/
structure ReqHeaders where
  authorization : Option String
  xQueryTimeoutSeconds : Option String
  xTimeoutSeconds : Option String
  xQueryPollMs : Option String
  xPollMs : Option String
  xQueryMaxAgeSeconds : Option String
  xMaxAgeSeconds : Option String
  xQueryId : Option String
  xRedashQueryId : Option String

/-- The timeout config object the handler builds from the request headers
(primary header name `||` alternate header name, per field). -/
def headerTimeoutConfig (h : ReqHeaders) : TimeoutConfig :=
  ⟨jsOrS h.xQueryTimeoutSeconds h.xTimeoutSeconds,
   jsOrS h.xQueryPollMs h.xPollMs,
   jsOrS h.xQueryMaxAgeSeconds h.xMaxAgeSeconds⟩

/-- The session-state update the `POST /messages` handler performs before
dispatching the message: store the parsed credential if an authorization
header is present and parses to a truthy value; store the freshly built
timeout config object if any of its fields is truthy; store the query id
if present. -/
def postMessagesUpdate (h : ReqHeaders) (s : SessionState) : SessionState :=
  let s1 :=
    if truthyS h.authorization then
      let k := parseAuthHeader (Option.getD h.authorization "")
      if decide (k ≠ "") then ⟨some k, s.timeouts, s.queryId⟩ else s
    else s
  let tc := headerTimeoutConfig h
  let s2 :=
    if truthyS tc.timeoutSeconds || truthyS tc.pollMs || truthyS tc.maxAgeSeconds then
      ⟨s1.apiKey, some tc, s1.queryId⟩
    else s1
  let qid := jsOrS h.xQueryId h.xRedashQueryId
  if truthyS qid then ⟨s2.apiKey, s2.timeouts, qid⟩ else s2

/-- Empty stored config (`sessionTimeouts.get(sessionId) || {}`). -/
def emptyTimeoutConfig : TimeoutConfig := ⟨none, none, none⟩

/-- The `getData` tool closure registered for an SSE session: read the
session's stored credential (`|| process.env.REDASH_KEY`), stored timeout
config and query id, and run `getDataHandler`. -/
def sessionGetData (s : SessionState) (env : Env) (eng : Engine) (org : String) : Outcome :=
  let apiKey := jsOrS s.apiKey env.REDASH_KEY
  let tc := Option.getD s.timeouts emptyTimeoutConfig
  getDataHandler ⟨org, apiKey, tc.timeoutSeconds, tc.pollMs, tc.maxAgeSeconds, s.queryId⟩ env eng

/-- A `ReqHeaders` record carrying only an authorization value. -/
def authOnly (a : Option String) : ReqHeaders :=
  ⟨a, none, none, none, none, none, none, none, none⟩

/-- Validation of `z.string()` on one JS value: accepted exactly when the
value is a string (any string, including the empty one). -/
def zodStringAccepts : JsVal → Bool
  | JsVal.str _ => true
  | _ => false

/-- Validation of the `getData` tool's input schema
`{ org: z.string() }` against an arguments object. -/
def getDataInputValid (argsObj : JsVal) : Bool :=
  zodStringAccepts (JsVal.get argsObj "org")

/-- Handler arguments carrying only a credential. -/
def argsKeyOnly : Args := ⟨"acme", some "KEY", none, none, none, none⟩

/-- Handler arguments carrying no credential. -/
def argsNoKey : Args := ⟨"acme", none, none, none, none, none⟩

/-- Handler arguments with a credential and a non-numeric timeout-seconds
override. -/
def argsNanTimeout : Args := ⟨"acme", some "KEY", some "abc", none, none, none⟩

/-- Environment with no variables set. -/
def envEmpty : Env := ⟨none, none, none, none, none⟩

/-- Environment with only the default credential set. -/
def envWithKey : Env := ⟨some "envk", none, none, none, none⟩

/-- Engine of the spec's walked-through scenario: submit returns
`{job: {id: "42"}}`, the poll endpoint successively reports statuses
1, 2 and 3 (with `query_result_id` `"99"`), and fetching `"99"` returns
`{"rows": []}`. -/
def engScenario : Engine :=
  ⟨fun _ _ => ⟨true, JsVal.obj [("job", JsVal.obj [("id", JsVal.str "42")])]⟩,
   fun _ n =>
     ⟨true,
      if n = 0 then JsVal.obj [("job", JsVal.obj [("status", JsVal.num 1)])]
      else if n = 1 then JsVal.obj [("job", JsVal.obj [("status", JsVal.num 2)])]
      else JsVal.obj [("job", JsVal.obj [("status", JsVal.num 3),
        ("query_result_id", JsVal.str "99")])]⟩,
   fun id =>
     match id with
     | JsVal.str "99" => ⟨true, JsVal.obj [("rows", JsVal.arr [])]⟩
     | _ => ⟨false, JsVal.undef⟩⟩

/-- The scenario invocation. -/
def runScenario : Outcome := getDataHandler argsKeyOnly envEmpty engScenario

/-- Engine whose submit response already carries a completed
`query_result` envelope. -/
def engImmediate : Engine :=
  ⟨fun _ _ => ⟨true, JsVal.obj [("query_result", JsVal.obj [("rows", JsVal.arr [])])]⟩,
   fun _ _ => ⟨false, JsVal.undef⟩,
   fun _ => ⟨false, JsVal.undef⟩⟩

/-- Engine whose submit response carries a job id and whose poll endpoint
always reports status 1 (queued). -/
def engQueued : Engine :=
  ⟨fun _ _ => ⟨true, JsVal.obj [("job", JsVal.obj [("id", JsVal.str "42")])]⟩,
   fun _ _ => ⟨true, JsVal.obj [("job", JsVal.obj [("status", JsVal.num 1)])]⟩,
   fun _ => ⟨false, JsVal.undef⟩⟩

/-- Engine whose first poll response reports status 3 (done) with a
falsy result id (the number 0) in the `job.query_result_id` shape. -/
def engFalsyId : Engine :=
  ⟨fun _ _ => ⟨true, JsVal.obj [("job", JsVal.obj [("id", JsVal.str "42")])]⟩,
   fun _ _ => ⟨true, JsVal.obj [("job", JsVal.obj [("status", JsVal.num 3),
     ("query_result_id", JsVal.num 0)])]⟩,
   fun _ => ⟨false, JsVal.undef⟩⟩

/-- A stored session config with all three fields set. -/
def c2Stored : TimeoutConfig := ⟨some "30", some "500", some "10"⟩

/-- Request headers of a config update carrying only `x-query-poll-ms`. -/
def c2Headers : ReqHeaders := ⟨none, none, none, some "100", none, none, none, none, none⟩

/-! Helper lemmas shared by the claim theorems. -/

/-- Splitting a list that does not contain the separator yields the list
itself as the only piece. -/
theorem splitChars_no_sep (sep : Char) (cs : List Char) (h : sep ∉ cs) :
    splitChars sep cs = [cs] := by
  induction cs with
  | nil => rfl
  | cons c rest ih =>
    have hc : ¬ c = sep := fun hc => h (by simp [hc])
    have hr : sep ∉ rest := fun hr => h (List.mem_cons_of_mem _ hr)
    simp [splitChars, hc, ih hr]

/-- Splitting `w ++ sep :: cs` where `w` is separator-free peels off `w`
as the first piece. -/
theorem splitChars_append_sep (sep : Char) (w cs : List Char) (hw : sep ∉ w) :
    splitChars sep (w ++ sep :: cs) = w :: splitChars sep cs := by
  induction w with
  | nil => simp [splitChars]
  | cons c rest ih =>
    have hc : ¬ c = sep := fun hc => hw (by simp [hc])
    have hr : sep ∉ rest := fun hr => hw (List.mem_cons_of_mem _ hr)
    simp [splitChars, hc, ih hr]

/-- A list cannot be a prefix of a list missing one of its characters. -/
theorem hasPre_mem (c : Char) : ∀ (pre s : List Char), c ∈ pre → c ∉ s →
    hasPre pre s = false
  | [], _, hc, _ => absurd hc (List.not_mem_nil c)
  | _ :: _, [], _, _ => rfl
  | p :: ps, x :: xs, hc, hs => by
    have hcx : ¬ c = x := fun h => hs (by simp [h])
    have hcxs : c ∉ xs := fun h => hs (List.mem_cons_of_mem _ h)
    rcases List.mem_cons.mp hc with h1 | h2
    · have hpx : ¬ p = x := fun h => hcx (h1 ▸ h)
      simp [hasPre, hpx]
    · simp [hasPre, hasPre_mem c ps xs h2 hcxs]

/-- Rebuilding a string from its characters is the identity. -/
theorem string_mk_data (s : String) : String.mk s.data = s := rfl

/-- The credential recorded in the outcome is always the resolved one. -/
theorem getDataHandler_credentialUsed (a : Args) (env : Env) (eng : Engine) :
    (getDataHandler a env eng).credentialUsed = resolvedApiKey a env := by
  unfold getDataHandler
  split
  · rfl
  split
  · rfl
  split
  · rfl
  split
  · rfl
  generalize pollJobUntilDone eng (submitJobId (handlerSubmitResp a env eng).body)
    (handlerTimeoutMs a env) (handlerPollMs a env) = pr
  cases pr <;> simp only [afterPoll]
  split <;> rfl

/-- With a truthy resolved credential the handler never reports
`missingCredential`. -/
theorem getDataHandler_result_ne_missing (a : Args) (env : Env) (eng : Engine)
    (hk : truthyS (resolvedApiKey a env) = true) :
    (getDataHandler a env eng).result ≠ Except.error HandlerError.missingCredential := by
  unfold getDataHandler
  rw [hk]
  simp only [Bool.true_eq_false, if_false]
  split
  · simp
  split
  · simp
  split
  · simp
  generalize pollJobUntilDone eng (submitJobId (handlerSubmitResp a env eng).body)
    (handlerTimeoutMs a env) (handlerPollMs a env) = pr
  cases pr <;> simp only [afterPoll]
  · split <;> simp
  all_goals simp

/-- C8 counterexample: an arguments object whose `org` is the empty string
validates successfully against the `getData` input schema, so an
empty-`org` call is executed, not rejected. -/
theorem empty_org_accepted :
    getDataInputValid (JsVal.obj [("org", JsVal.str "")]) = true := rfl

/-- C8 (amended): the `getData` input schema requires `org` to be present
and a string — any string is accepted, including the empty one, and an
absent `org` is rejected. -/
theorem org_schema_semantics (v : JsVal) :
    (getDataInputValid (JsVal.obj [("org", v)]) = true ↔ ∃ s, v = JsVal.str s)
    ∧ getDataInputValid (JsVal.obj []) = false := by
  refine ⟨?_, rfl⟩
  cases v <;> simp [getDataInputValid, zodStringAccepts, JsVal.get, List.lookup]

/-- C2 counterexample: with a stored config whose `timeoutSeconds` is
`"30"`, a config update carrying only `pollMs` leaves the session with a
config whose `timeoutSeconds` is unset — the unspecified field did not
retain its prior value. -/
theorem config_update_drops_unsupplied :
    (postMessagesUpdate c2Headers ⟨none, some c2Stored, none⟩).timeouts
        = some ⟨none, some "100", none⟩
    ∧ c2Stored.timeoutSeconds = some "30" := ⟨rfl, rfl⟩

/-- C2 (amended): a `POST /messages` config update carrying at least one
of the three fields replaces the session's entire stored config with
exactly the supplied fields (unsupplied fields become unset, falling back
to process defaults at resolution); an update carrying none of the fields
leaves the stored config unchanged. -/
theorem config_update_replaces_whole (h : ReqHeaders) (s : SessionState) :
    (postMessagesUpdate h s).timeouts =
      if truthyS (headerTimeoutConfig h).timeoutSeconds
          || truthyS (headerTimeoutConfig h).pollMs
          || truthyS (headerTimeoutConfig h).maxAgeSeconds
      then some (headerTimeoutConfig h) else s.timeouts := by
  dsimp only [postMessagesUpdate]
  split_ifs <;> rfl

/-- C5 counterexample: in the spec's scenario (submit returns a job id,
polls report statuses 1, 2, 3 with result id `"99"`), the invocation makes
3 poll calls, not 2. -/
theorem scenario_poll_count_not_two :
    runScenario.pollCalls = 3 ∧ ¬ runScenario.pollCalls = 2 := by decide

/-- C5 (amended): in the scenario where submit returns `{job: {id:"42"}}`,
polls successively report statuses 1, 2 and 3 with `query_result_id`
`"99"`, and fetching `"99"` returns `{"rows": []}`, the invocation returns
`{"rows": []}` after exactly 3 poll calls, with the fetch call made
exactly once with id `"99"`. -/
theorem scenario_three_polls_one_fetch :
    runScenario.result = Except.ok (JsVal.obj [("rows", JsVal.arr [])])
    ∧ runScenario.pollCalls = 3 ∧ runScenario.fetchCalls = 1
    ∧ runScenario.fetchIds = [JsVal.str "99"] :=
  ⟨rfl, rfl, rfl, rfl⟩

/-- C4: when the submit response is ok and already carries a truthy
`query_result` envelope, the handler returns that body immediately with
zero poll calls and zero fetch calls. -/
theorem immediate_result_short_circuit (a : Args) (env : Env) (eng : Engine)
    (hkey : truthyS (resolvedApiKey a env) = true)
    (hok : (handlerSubmitResp a env eng).ok = true)
    (hqr : (JsVal.get (handlerSubmitResp a env eng).body "query_result").truthy = true) :
    (getDataHandler a env eng).result = Except.ok (handlerSubmitResp a env eng).body
    ∧ (getDataHandler a env eng).pollCalls = 0
    ∧ (getDataHandler a env eng).fetchCalls = 0 := by
  simp [getDataHandler, hkey, hok, hqr]

/-- C4 witness: the short-circuit theorem applied to a concrete
immediate-result engine. -/
theorem immediate_result_short_circuit_witness :
    (getDataHandler argsKeyOnly envEmpty engImmediate).result
        = Except.ok (handlerSubmitResp argsKeyOnly envEmpty engImmediate).body
    ∧ (getDataHandler argsKeyOnly envEmpty engImmediate).pollCalls = 0
    ∧ (getDataHandler argsKeyOnly envEmpty engImmediate).fetchCalls = 0 :=
  immediate_result_short_circuit argsKeyOnly envEmpty engImmediate
    (by decide) (by decide) (by decide)

/-- C6: for every space-free credential string X, the three accepted
textual forms of the authorization value — a two-token scheme-value form
such as `"Bearer X"` or `"Key X"`, the `"Key "`-prefix form, and the bare
token — all normalize to the same credential string X. -/
theorem auth_forms_normalize (X : String) (hX : ' ' ∉ X.data) :
    parseAuthHeader ("Bearer " ++ X) = X
    ∧ parseAuthHeader ("Key " ++ X) = X
    ∧ parseAuthHeader X = X := by
  have hb : ("Bearer " ++ X).data = "Bearer".data ++ (' ' :: X.data) := rfl
  have hk : ("Key " ++ X).data = "Key".data ++ (' ' :: X.data) := rfl
  refine ⟨?_, ?_, ?_⟩
  · simp only [parseAuthHeader, hb,
      splitChars_append_sep ' ' "Bearer".data X.data (by decide),
      splitChars_no_sep ' ' X.data hX]
    simp [string_mk_data]
  · simp only [parseAuthHeader, hk,
      splitChars_append_sep ' ' "Key".data X.data (by decide),
      splitChars_no_sep ' ' X.data hX]
    simp [string_mk_data]
  · simp only [parseAuthHeader, splitChars_no_sep ' ' X.data hX,
      hasPre_mem ' ' "Key ".data X.data (by decide) hX]
    simp

/-- C6 witness: the normalization theorem applied to the concrete
credential `"abc123"`. -/
theorem auth_forms_normalize_witness :
    parseAuthHeader ("Bearer " ++ "abc123") = "abc123"
    ∧ parseAuthHeader ("Key " ++ "abc123") = "abc123"
    ∧ parseAuthHeader "abc123" = "abc123" :=
  auth_forms_normalize "abc123" (by decide)

/-- C1: three-layer credential precedence through the `POST /messages`
update and the session `getData` closure — with a per-request
authorization value, a session-stored credential, and a process default
all set, the credential used is the parsed per-request value; without the
per-request value the session-stored value is used; without both the
process default is used. -/
theorem credential_precedence (A y z org : String) (tos : Option TimeoutConfig)
    (qid : Option String) (env : Env) (eng : Engine) (hA : A ≠ "")
    (hk : parseAuthHeader A ≠ "") (hy : y ≠ "") (hz : env.REDASH_KEY = some z)
    (hzt : z ≠ "") :
    (sessionGetData (postMessagesUpdate (authOnly (some A)) ⟨some y, tos, qid⟩)
        env eng org).credentialUsed = some (parseAuthHeader A)
    ∧ (sessionGetData (postMessagesUpdate (authOnly none) ⟨some y, tos, qid⟩)
        env eng org).credentialUsed = some y
    ∧ (sessionGetData (postMessagesUpdate (authOnly none) ⟨none, tos, qid⟩)
        env eng org).credentialUsed = some z := by
  have u1 : postMessagesUpdate (authOnly (some A)) ⟨some y, tos, qid⟩
      = ⟨some (parseAuthHeader A), tos, qid⟩ := by
    simp [postMessagesUpdate, authOnly, headerTimeoutConfig, truthyS, jsOrS, hA, hk]
  have u2 : ∀ ak : Option String, postMessagesUpdate (authOnly none) ⟨ak, tos, qid⟩
      = ⟨ak, tos, qid⟩ := by
    intro ak
    simp [postMessagesUpdate, authOnly, headerTimeoutConfig, truthyS, jsOrS]
  refine ⟨?_, ?_, ?_⟩
  · rw [u1]
    simp [sessionGetData, getDataHandler_credentialUsed, resolvedApiKey, jsOrS, truthyS, hk]
  · rw [u2]
    simp [sessionGetData, getDataHandler_credentialUsed, resolvedApiKey, jsOrS, truthyS, hy]
  · rw [u2]
    simp [sessionGetData, getDataHandler_credentialUsed, resolvedApiKey, jsOrS, truthyS,
      hz, hzt]

/-- C1 witness: the precedence theorem applied to concrete per-request,
session and environment credentials. -/
theorem credential_precedence_witness :
    (sessionGetData (postMessagesUpdate (authOnly (some "Key abc"))
        ⟨some "sess", none, none⟩) envWithKey engQueued "acme").credentialUsed
      = some (parseAuthHeader "Key abc")
    ∧ (sessionGetData (postMessagesUpdate (authOnly none)
        ⟨some "sess", none, none⟩) envWithKey engQueued "acme").credentialUsed
      = some "sess"
    ∧ (sessionGetData (postMessagesUpdate (authOnly none)
        ⟨none, none, none⟩) envWithKey engQueued "acme").credentialUsed
      = some "envk" :=
  credential_precedence "Key abc" "sess" "envk" "acme" none none envWithKey engQueued
    (by decide) (by decide) (by decide) rfl (by decide)

/-- C7: the handler reports `missingCredential` exactly when no credential
resolves from any layer, and in that case it makes zero submit, poll and
fetch calls. -/
theorem missing_credential_iff (a : Args) (env : Env) (eng : Engine) :
    ((getDataHandler a env eng).result = Except.error HandlerError.missingCredential
      ↔ truthyS (resolvedApiKey a env) = false)
    ∧ (truthyS (resolvedApiKey a env) = false →
        (getDataHandler a env eng).submitCalls = 0
        ∧ (getDataHandler a env eng).pollCalls = 0
        ∧ (getDataHandler a env eng).fetchCalls = 0) := by
  cases hk : truthyS (resolvedApiKey a env) with
  | false =>
    constructor
    · simp [getDataHandler, hk]
    · intro _
      simp [getDataHandler, hk]
  | true =>
    constructor
    · constructor
      · intro hres
        exact absurd hres (getDataHandler_result_ne_missing a env eng hk)
      · intro hfalse
        exact absurd hfalse (by simp [hk])
    · intro hfalse
      exact absurd hfalse (by simp [hk])

/-- C7 witness: the missing-credential theorem applied to an invocation
with no per-request credential and an empty environment. -/
theorem missing_credential_iff_witness :
    ((getDataHandler argsNoKey envEmpty engQueued).result
        = Except.error HandlerError.missingCredential
      ↔ truthyS (resolvedApiKey argsNoKey envEmpty) = false)
    ∧ (truthyS (resolvedApiKey argsNoKey envEmpty) = false →
        (getDataHandler argsNoKey envEmpty engQueued).submitCalls = 0
        ∧ (getDataHandler argsNoKey envEmpty engQueued).pollCalls = 0
        ∧ (getDataHandler argsNoKey envEmpty engQueued).fetchCalls = 0) :=
  missing_credential_iff argsNoKey envEmpty engQueued

/-- With a finite nonnegative budget and a positive poll interval, fuel at
least the remaining budget keeps the loop from exhausting its fuel. -/
theorem pollLoop_not_fuelOut (eng : Engine) (jobId : JsVal) (T p : Int)
    (hT : 0 ≤ T) (hp : 1 ≤ p) :
    ∀ (fuel elapsed polls : Nat), T.toNat ≤ elapsed + fuel →
      (pollLoop eng jobId (JsNum.num T) (JsNum.num p) fuel elapsed
        polls).isFuelOut = false := by
  intro fuel
  induction fuel with
  | zero =>
    intro elapsed polls hle
    unfold pollLoop
    rw [if_neg (by simp [JsNum.ltB]; omega)]
    rfl
  | succ f ih =>
    intro elapsed polls hle
    unfold pollLoop
    by_cases hlt : (elapsed : Int) < T
    · rw [if_pos (by simp [JsNum.ltB]; exact hlt)]
      split
      · rename_i fuel2 heq
        exact absurd heq (by omega)
      · rename_i fuel2 f2 heq
        obtain rfl : f2 = f := by omega
        dsimp only
        split
        · rfl
        split
        · split
          · rfl
          · rfl
        split
        · rfl
        · exact ih (elapsed + sleepAdvance (JsNum.num p)) (polls + 1)
            (by simp only [sleepAdvance]; omega)
    · rw [if_neg (by simp [JsNum.ltB]; omega)]
      rfl

/-- The elapsed model time recorded in the loop's result stays below
`T + p` whenever it starts below that bound. -/
theorem pollLoop_elapsed_bound (eng : Engine) (jobId : JsVal) (T p : Int)
    (hp : 1 ≤ p) :
    ∀ (fuel elapsed polls : Nat), ((elapsed : Nat) : Int) < T + p →
      (((pollLoop eng jobId (JsNum.num T) (JsNum.num p) fuel elapsed
        polls).elapsedOf : Nat) : Int) < T + p := by
  intro fuel
  induction fuel with
  | zero =>
    intro elapsed polls he
    unfold pollLoop
    split
    · exact he
    · exact he
  | succ f ih =>
    intro elapsed polls he
    unfold pollLoop
    by_cases hlt : (elapsed : Int) < T
    · rw [if_pos (by simp [JsNum.ltB]; exact hlt)]
      split
      · rename_i fuel2 heq
        exact absurd heq (by omega)
      · rename_i fuel2 f2 heq
        obtain rfl : f2 = f := by omega
        dsimp only
        split
        · exact he
        split
        · split
          · exact he
          · exact he
        split
        · exact he
        · exact ih (elapsed + sleepAdvance (JsNum.num p)) (polls + 1)
            (by simp only [sleepAdvance]; omega)
    · rw [if_neg (by simp [JsNum.ltB]; omega)]
      exact he

/-- C3: for every engine behavior, with a finite nonnegative timeout
budget `T` ms and a positive poll interval `p` ms, `pollJobUntilDone`
terminates (the fuel of the embedding is never exhausted) and the final
elapsed time it records is below `T + p` — within one poll interval past
the budget, in every exit case (success, upstream failure, or timeout). -/
theorem poll_loop_terminates_within_budget (eng : Engine) (jobId : JsVal)
    (T p : Int) (hT : 0 ≤ T) (hp : 1 ≤ p) :
    (pollJobUntilDone eng jobId (JsNum.num T) (JsNum.num p)).isFuelOut = false
    ∧ ((pollJobUntilDone eng jobId (JsNum.num T) (JsNum.num p)).elapsedOf : Int)
        < T + p := by
  constructor
  · exact pollLoop_not_fuelOut eng jobId T p hT hp
      (timeoutFuel (JsNum.num T) + 1) 0 0 (by simp only [timeoutFuel]; omega)
  · exact pollLoop_elapsed_bound eng jobId T p hp
      (timeoutFuel (JsNum.num T) + 1) 0 0 (by omega)

/-- C3 witness: the termination theorem applied to an always-queued engine
with a 5 ms budget and a 2 ms poll interval. -/
theorem poll_loop_terminates_within_budget_witness :
    (pollJobUntilDone engQueued (JsVal.str "42") (JsNum.num 5)
        (JsNum.num 2)).isFuelOut = false
    ∧ ((pollJobUntilDone engQueued (JsVal.str "42") (JsNum.num 5)
        (JsNum.num 2)).elapsedOf : Int) < 5 + 2 :=
  poll_loop_terminates_within_budget engQueued (JsVal.str "42") 5 2
    (by decide) (by decide)

/-- C9: when the submit response yields a job id, the timeout budget
admits a first iteration, and the first poll response is ok with status 3
(done) but both accepted result-id shapes hold only falsy values (such as
the number 0 or the empty string), the invocation fails with
`missingResultReference` and makes no fetch call. -/
theorem falsy_result_id_missing_reference (a : Args) (env : Env) (eng : Engine)
    (hkey : truthyS (resolvedApiKey a env) = true)
    (hok : (handlerSubmitResp a env eng).ok = true)
    (hqr : (JsVal.get (handlerSubmitResp a env eng).body "query_result").truthy = false)
    (hjob : (submitJobId (handlerSubmitResp a env eng).body).truthy = true)
    (hguard : JsNum.ltB (JsNum.num 0) (handlerTimeoutMs a env) = true)
    (hpok : (eng.poll (submitJobId (handlerSubmitResp a env eng).body) 0).ok = true)
    (hstatus : JsVal.eqNum (JsVal.get (JsVal.get
        (eng.poll (submitJobId (handlerSubmitResp a env eng).body) 0).body "job")
        "status") 3 = true)
    (hfalsy : (jsOrV
        (JsVal.get (JsVal.get (JsVal.get
          (eng.poll (submitJobId (handlerSubmitResp a env eng).body) 0).body "job")
          "result") "query_result_id")
        (JsVal.get (JsVal.get
          (eng.poll (submitJobId (handlerSubmitResp a env eng).body) 0).body "job")
          "query_result_id")).truthy = false) :
    (getDataHandler a env eng).result = Except.error HandlerError.missingResultReference
    ∧ (getDataHandler a env eng).fetchCalls = 0 := by
  have hpoll : pollJobUntilDone eng (submitJobId (handlerSubmitResp a env eng).body)
      (handlerTimeoutMs a env) (handlerPollMs a env) = PollResult.missingRef 0 1 := by
    unfold pollJobUntilDone pollLoop
    rw [if_pos (by simpa using hguard)]
    simp only [Nat.add_eq, Nat.add_zero]
    rw [if_neg (by simp [hpok]), if_pos hstatus, if_neg (by simp [hfalsy])]
  rw [getDataHandler]
  rw [if_neg (by simp [hkey]), if_neg (by simp [hok]), if_neg (by simp [hqr]),
    if_neg (by simp [hjob]), hpoll]
  exact ⟨rfl, rfl⟩

/-- C9 witness: the falsy-result-id theorem applied to an engine whose
first poll response reports done with `query_result_id` equal to the
number 0. -/
theorem falsy_result_id_missing_reference_witness :
    (getDataHandler argsKeyOnly envEmpty engFalsyId).result
        = Except.error HandlerError.missingResultReference
    ∧ (getDataHandler argsKeyOnly envEmpty engFalsyId).fetchCalls = 0 :=
  falsy_result_id_missing_reference argsKeyOnly envEmpty engFalsyId
    (by decide) (by decide) (by decide) (by decide) (by decide) (by decide)
    (by decide) (by decide)

/-- C10: when the resolved timeout-seconds text is non-numeric
(`parseInt` yields `NaN`), the computed budget is `NaN`, the loop guard is
false at once, and an invocation whose submit response carries a job id
makes zero poll calls and fails with `pollTimeout`. -/
theorem nan_timeout_zero_polls (a : Args) (env : Env) (eng : Engine)
    (hkey : truthyS (resolvedApiKey a env) = true)
    (hnan : parseInt (resolvedTimeoutStr a env) = JsNum.nan)
    (hok : (handlerSubmitResp a env eng).ok = true)
    (hqr : (JsVal.get (handlerSubmitResp a env eng).body "query_result").truthy = false)
    (hjob : (submitJobId (handlerSubmitResp a env eng).body).truthy = true) :
    (getDataHandler a env eng).result = Except.error HandlerError.pollTimeout
    ∧ (getDataHandler a env eng).pollCalls = 0 := by
  have htms : handlerTimeoutMs a env = JsNum.nan := by
    simp [handlerTimeoutMs, hnan, JsNum.mul]
  have hpoll : pollJobUntilDone eng (submitJobId (handlerSubmitResp a env eng).body)
      (handlerTimeoutMs a env) (handlerPollMs a env) = PollResult.timeout 0 0 := by
    rw [htms]
    unfold pollJobUntilDone pollLoop
    rw [if_neg (by simp [JsNum.ltB])]
  rw [getDataHandler]
  rw [if_neg (by simp [hkey]), if_neg (by simp [hok]), if_neg (by simp [hqr]),
    if_neg (by simp [hjob]), hpoll]
  exact ⟨rfl, rfl⟩

/-- C10 witness: the NaN-timeout theorem applied to an invocation whose
timeout-seconds override is the text `"abc"`. -/
theorem nan_timeout_zero_polls_witness :
    (getDataHandler argsNanTimeout envEmpty engQueued).result
        = Except.error HandlerError.pollTimeout
    ∧ (getDataHandler argsNanTimeout envEmpty engQueued).pollCalls = 0 :=
  nan_timeout_zero_polls argsNanTimeout envEmpty engQueued
    (by decide) rfl (by decide) (by decide) (by decide)
